import Mathlib

/-!
Verification of the multi-ping engine's core against its specification.

The development shallowly embeds the Python sources:
  * `yaping/protocol.py` (ICMP codec: `checksum`, `encode_request`,
    `decode_response`; `multiping/core.py` carries identical copies),
  * `multiping/ping.py` (blocking sweep: `receive_pings_for_sequence`,
    `receive_one_ping`, `Ping.ping`),
  * `yaping/aioping.py` / `multiping/aioping.py` (asynchronous sweep:
    `receive_one_ping` and its readiness callback `cb`),
  * `yaping/tools.py` (statistics: `HostStats`, `PingStats.update_stats`).

Bytes are modelled as natural numbers below 256, byte strings as lists of
such numbers.  IEEE-754 doubles are handled opaquely, as the 64-bit pattern
the codec stores and loads verbatim (`struct.Struct("d")` on both sides),
so bit-exactness of the timestamp round trip is literal byte identity.
RTT values in the statistics layer are modelled as rationals: every
concrete computation checked here (`0 + 0.010`, halving, `min`/`max` of a
singleton, `errors/total`) is exact in binary floating point as well.
-/

namespace MultiPing

/-! ## Codec: `checksum` (`yaping/protocol.py:99-105`, `multiping/core.py:91-97`) -/

/-- Python's `sum(payload[::2])` and `sum(payload[1::2])`: the sums of the bytes at
even and at odd indices. -/
def altSum : List Nat → Nat × Nat
  | [] => (0, 0)
  | a :: rest =>
    let s := altSum rest
    (a + s.2, s.1)

/-- The `while result >= 0x10000` loop of `checksum`, with explicit fuel:
each pass replaces `result` by `result // 0x10000 + result % 0x10000`. -/
def foldCarryAux : Nat → Nat → Nat
  | 0, r => r
  | fuel + 1, r => if r < 65536 then r else foldCarryAux fuel (r / 65536 + r % 65536)

/-- End-around carry fold: fuel `r` always suffices since every pass strictly
decreases a value that is `≥ 65536`. -/
def foldCarry (r : Nat) : Nat := foldCarryAux r r

/-- The function `checksum(payload)` from `yaping/protocol.py` / `multiping/core.py`:
`result = sum(payload[::2]) + (sum(payload[1::2]) << 8)`, fold carries,
return `~result & 0xFFFF`. -/
def checksum (payload : List Nat) : Nat :=
  let s := altSum payload
  65535 - foldCarry (s.1 + 256 * s.2)

/-! ## Codec: `encode_request` / `decode_response` (`yaping/protocol.py:108-136`) -/

/-- Big-endian 16-bit field as packed by `struct.Struct("!BBHHH")`. -/
def be16 (x : Nat) : List Nat := [x / 256 % 256, x % 256]

/-- The 8-byte ICMP echo header `type | code | checksum | id | seq`
(all multi-byte fields big-endian). -/
def packHeader (ty code csum icmpId icmpSeq : Nat) : List Nat :=
  ty % 256 :: code % 256 :: (be16 csum ++ be16 icmpId ++ be16 icmpSeq)

/-- The 8 bytes of `struct.Struct("d").pack(t)` for the double whose 64-bit
pattern is `t`, in the platform's (little-endian) byte order. -/
def timeBytes (t : Nat) : List Nat :=
  [t % 256, t / 256 % 256, t / 65536 % 256, t / 16777216 % 256,
   t / 4294967296 % 256, t / 1099511627776 % 256,
   t / 281474976710656 % 256, t / 72057594037927936 % 256]

/-- The `ICMP_DEFAULT_SIZE - len(header) - TIME.size` bytes of ASCII `Q`. -/
def qPadding : List Nat := List.replicate 48 81

/-- The function `encode_request(request, icmp_id, icmp_seq, timestamp)`: build the header
with checksum 0, append the 8 timestamp bytes and the `Q` padding, compute the
checksum of the whole 64 bytes and re-pack the header with it. -/
def encode_request (request icmpId icmpSeq t : Nat) : List Nat :=
  let header := packHeader request 0 0 icmpId icmpSeq
  let payload := timeBytes t ++ qPadding
  let csum := checksum (header ++ payload)
  packHeader request 0 csum icmpId icmpSeq ++ payload

/-- The decoded dictionary returned by `decode_response`. -/
structure Decoded where
  type : Nat
  code : Nat
  checksum : Nat
  id : Nat
  sequence : Nat
  time_sent : Nat
  size : Nat
  deriving Repr, DecidableEq

/-- The `ValueError`s `decode_response` can raise: `Wrong type: {t}` when the
type byte is not an echo reply, or a too-small buffer in
`Header.from_buffer_copy` / `TIME.unpack_from`. -/
inductive DecodeError where
  | wrongType (t : Nat)
  | tooShort
  deriving Repr, DecidableEq

/-- The function `decode_response(payload, with_ip_header)`: skip the 20-byte IP header if
present, read the big-endian echo header, reject any type outside
`{ICMPv4.ECHO_REPLY = 0, ICMPv6.ECHO_REPLY = 129}`, then read the 8 timestamp
bytes that follow the header. -/
def decode_response (data : List Nat) (withIpHeader : Bool) : Except DecodeError Decoded :=
  let offset := if withIpHeader then 20 else 0
  match data.drop offset with
  | ty :: code :: c1 :: c2 :: i1 :: i2 :: s1 :: s2 ::
      t0 :: t1 :: t2 :: t3 :: t4 :: t5 :: t6 :: t7 :: _ =>
    if ty = 0 ∨ ty = 129 then
      .ok
        { type := ty, code := code, checksum := c1 * 256 + c2,
          id := i1 * 256 + i2, sequence := s1 * 256 + s2,
          time_sent :=
            t0 + 256 * t1 + 65536 * t2 + 16777216 * t3 + 4294967296 * t4 +
              1099511627776 * t5 + 281474976710656 * t6 +
              72057594037927936 * t7,
          size := data.length }
    else .error (.wrongType ty)
  | _ => .error .tooShort

/-! ## RFC 1071 reference checksums, modelled from the spec's words
(spec §4.1: "sum every even-indexed byte as high-order and every odd-indexed
byte as low-order (or equivalently, sum 16-bit big-endian words)"). -/

/-- The buffer as 16-bit big-endian words, an odd trailing byte padded with a
zero low-order byte. -/
def wordsBE : List Nat → List Nat
  | [] => []
  | [a] => [256 * a]
  | a :: b :: rest => (256 * a + b) :: wordsBE rest

/-- The spec's RFC 1071 reference: ones-complement-sum the big-endian words,
fold carries, complement to 16 bits. -/
def rfc1071BE (payload : List Nat) : Nat :=
  65535 - foldCarry (wordsBE payload).sum

/-- The buffer as 16-bit little-endian words (even-indexed byte low-order),
an odd trailing byte standing alone. -/
def wordsLE : List Nat → List Nat
  | [] => []
  | [a] => [a]
  | a :: b :: rest => (a + 256 * b) :: wordsLE rest

/-- RFC 1071 with the machine's little-endian word convention: what the
source's `checksum` actually computes. -/
def rfc1071LE (payload : List Nat) : Nat :=
  65535 - foldCarry (wordsLE payload).sum

/-! ## Sweep engine (`multiping/ping.py:26-48`, `yaping/aioping.py:35-62`)

One sweep consumes the results of successive socket receive operations.
Each operation either delivers a packet that decodes to a reply
(carrying its source `ip` and `sequence`), delivers a packet whose ICMP
type is not an echo reply (`decode_response` raises `Wrong type`), or
hits the sweep deadline (`TimeoutError`). -/

/-- A decoded echo reply as the sweep sees it: `response["ip"]` and
`response["sequence"]`. -/
structure SweepReply where
  ip : String
  sequence : Nat
  deriving Repr, DecidableEq

/-- What one receive operation on the shared socket produces. -/
inductive RecvEvent where
  | reply (r : SweepReply)
  | wrongType (t : Nat)
  | timeout
  deriving Repr, DecidableEq

/-- One record yielded by a sweep: a matched reply, or
`{"ip": ip, "error": msg}`. -/
inductive Outcome where
  | success (r : SweepReply)
  | error (ip : String) (msg : String)
  deriving Repr, DecidableEq

/-- How a sweep's generator stops. -/
inductive SweepEnd where
  /-- the set `pending_ips` became empty: normal completion. -/
  | completed
  /-- the deadline fired and timeout outcomes were emitted. -/
  | timedOutDone
  /-- the call `pending_ips.remove(ip)` raised `KeyError`: the exception escapes the
  blocking generator and kills the stream. -/
  | crashKeyError (ip : String)
  /-- the call `decode_response` raised `ValueError("Wrong type: t")`: the exception
  escapes the blocking generator and kills the stream. -/
  | crashWrongType (t : Nat)
  /-- the event trace ran out while the sweep was still waiting. -/
  | blocked
  deriving Repr, DecidableEq

/-- The blocking sweep of `multiping/ping.py`: `receive_one_ping` consuming
`receive_pings_for_sequence`.  While `pending_ips` is nonempty it pulls the
next receive result: a deadline expiry yields `{"ip": ip, "error": ...}` for
every pending ip and returns; a wrong-type packet raises out of the
generator (nothing catches `ValueError`); a stale reply
(`response["sequence"] != icmp_seq`) is logged and skipped;
a matching reply is removed from `pending_ips` (raising `KeyError` if its
ip is not pending) and yielded. -/
def sweepRun (icmpSeq : Nat) : List RecvEvent → List String → List Outcome × SweepEnd
  | _, [] => ([], .completed)
  | [], _ => ([], .blocked)
  | e :: rest, pending =>
    match e with
    | .timeout => (pending.map (Outcome.error · "timeout"), .timedOutDone)
    | .wrongType t => ([], .crashWrongType t)
    | .reply r =>
      if r.sequence ≠ icmpSeq then
        sweepRun icmpSeq rest pending
      else if r.ip ∈ pending then
        let res := sweepRun icmpSeq rest (pending.erase r.ip)
        (Outcome.success r :: res.1, res.2)
      else ([], .crashKeyError r.ip)

/-- The asynchronous sweep of `yaping/aioping.py` / `multiping/aioping.py`:
the readiness callback `cb` returns early on a stale sequence, and any
exception it raises (`ValueError` from `decode_response`, `KeyError` from
`pending_ips.remove`) is caught and logged by the event loop, so the sweep
keeps waiting; a matching pending reply is removed and queued, and when
`pending_ips` empties a `None` sentinel ends the consumer; on deadline
expiry the `TimeoutError` handler yields an error outcome per pending ip. -/
def asyncSweepRun (icmpSeq : Nat) : List RecvEvent → List String → List Outcome × SweepEnd
  | [], _ => ([], .blocked)
  | e :: rest, pending =>
    match e with
    | .timeout => (pending.map (Outcome.error · "timeout"), .timedOutDone)
    | .wrongType _ => asyncSweepRun icmpSeq rest pending
    | .reply r =>
      if r.sequence ≠ icmpSeq then
        asyncSweepRun icmpSeq rest pending
      else if r.ip ∈ pending then
        let remaining := pending.erase r.ip
        if remaining.isEmpty then ([Outcome.success r], .completed)
        else
          let res := asyncSweepRun icmpSeq rest remaining
          (Outcome.success r :: res.1, res.2)
      else asyncSweepRun icmpSeq rest pending

/-! ## Ping driver (`multiping/ping.py:141-161`, `Ping.ping`)

After `resolve_addresses`, `Ping.ping` first yields one error outcome per
unresolved input, then iterates `range(1, count+1)` if `count` is truthy
and the infinite `cycle()` otherwise, running one sweep per sequence number
and sleeping `interval` between sweeps.  With an empty `addr_map` each sweep
yields nothing (the pending set starts empty).  The generator is modelled as
a step machine, one `step` per yielded-or-internal action. -/

/-- Control state of the `Ping.ping` generator body. -/
inductive PingPhase where
  /-- still inside `for addr, error in errors.items(): yield ...`. -/
  | emitErrors (errs : List (String × String))
  /-- about to run the sweep with the `i`-th sequence number (0-based). -/
  | sweepLoop (i : Nat)
  /-- the generator is exhausted (`StopIteration`). -/
  | done
  deriving Repr, DecidableEq

/-- One step of the `Ping.ping` generator when `addr_map` is empty:
emit the next resolution-error outcome, or run one (empty, silent) sweep
and sleep, advancing the sequence iterator.  `count = none` models the
default `count=None`, for which the sequence source is the infinite
`cycle()`. -/
def pingStep (count : Option Nat) : PingPhase → PingPhase × Option Outcome
  | .emitErrors ((addr, err) :: rest) => (.emitErrors rest, some (.error addr err))
  | .emitErrors [] => (.sweepLoop 0, none)
  | .sweepLoop i =>
    match count with
    | some n => if i < n then (.sweepLoop (i + 1), none) else (.done, none)
    | none => (.sweepLoop (i + 1), none)
  | .done => (.done, none)

/-- The generator state after `n` steps. -/
def pingIter (count : Option Nat) (st : PingPhase) : Nat → PingPhase
  | 0 => st
  | n + 1 => (pingStep count (pingIter count st n)).1

/-! ## Statistics (`yaping/tools.py:48-110`)

`HostStats` counters are exact integers in Python; RTTs are doubles,
modelled as rationals (every operation checked here is exact in binary
floating point). -/

/-- Per-destination accumulator `HostStats.__init__`. -/
structure HostStats where
  errors : Nat
  max : ℚ
  min : ℚ
  sum : ℚ
  total : Nat
  deriving Repr, DecidableEq

/-- The `HostStats(ip, host)` initial values. -/
def initHostStats : HostStats :=
  { errors := 0, max := 0, min := 99999999, sum := 0, total := 0 }

/-- One record passing through `PingStats`: `result["ip"]` plus either
`result["time"]` or the presence of `"error"`. -/
inductive PingRecord where
  | ok (ip : String) (time : ℚ)
  | err (ip : String)
  deriving Repr, DecidableEq

/-- The field `result["ip"]`. -/
def PingRecord.ip : PingRecord → String
  | .ok ip _ => ip
  | .err ip => ip

/-- Whether `"error" in result`. -/
def PingRecord.isErr : PingRecord → Bool
  | .ok _ _ => false
  | .err _ => true

/-- The annotations `PingStats.update_stats` writes back into the result. -/
structure Annot where
  min_time : ℚ
  max_time : ℚ
  avg_time : ℚ
  nb_requests : Nat
  nb_ok : Nat
  nb_errors : Nat
  accum_time : ℚ
  loss : ℚ
  deriving Repr, DecidableEq

/-- The body of `update_stats` on one host's accumulator: bump `total`,
then either bump `errors` or fold the RTT into `max`/`min`/`sum`. -/
def hostStatsUpdate (st : HostStats) (r : PingRecord) : HostStats :=
  let st := { st with total := st.total + 1 }
  match r with
  | .err _ => { st with errors := st.errors + 1 }
  | .ok _ dt => { st with max := max st.max dt, min := min st.min dt, sum := st.sum + dt }

/-- The annotations read off the updated accumulator: `min`, `max`,
`avg = sum/total`, `total`, `ok = total - errors`, `errors`, `sum`,
`loss = errors/total`. -/
def annotOf (st : HostStats) : Annot :=
  { min_time := st.min, max_time := st.max, avg_time := st.sum / st.total,
    nb_requests := st.total, nb_ok := st.total - st.errors,
    nb_errors := st.errors, accum_time := st.sum,
    loss := (st.errors : ℚ) / st.total }

/-- The `self.stats` dictionary, keyed by `result["ip"]`. -/
def StatsMap := String → Option HostStats

/-- The method `update_stats(result)`: fetch or create the host's accumulator, update
it, and return the annotations written into the result. -/
def updateStats (m : StatsMap) (r : PingRecord) : StatsMap × Annot :=
  let st := (m r.ip).getD initHostStats
  let st' := hostStatsUpdate st r
  (fun ip => if ip = r.ip then some st' else m ip, annotOf st')

/-- Iterating `PingStats` over a stream: each passing record is annotated
in place. -/
def runStats (m : StatsMap) : List PingRecord → List Annot
  | [] => []
  | r :: rest =>
    let step := updateStats m r
    step.2 :: runStats step.1 rest

/-- The empty `self.stats = {}`. -/
def emptyStats : StatsMap := fun _ => none

/-- An accumulator that has only ever seen errors still holds the
`__init__` sentinels in its RTT fields. -/
def errOnly (m : StatsMap) (ip : String) : Prop :=
  ∀ st, m ip = some st → st.max = 0 ∧ st.min = 99999999 ∧ st.sum = 0

/-- The destinations of `pending` that no success outcome in `succs` has
answered: the pending set left when the deadline fires. -/
def stillPending (pending : List String) (succs : List SweepReply) : List String :=
  pending.filter fun ip => !(succs.map SweepReply.ip).contains ip

/-! ## Theorems -/

/-- With no successes yet, `stillPending` is the whole pending set. -/
theorem stillPending_nil (pending : List String) : stillPending pending [] = pending := by
  simp [stillPending]

/-- Recording one more success is the same as erasing its ip up front
(for a duplicate-free pending set). -/
theorem stillPending_cons {pending : List String} (hnd : pending.Nodup)
    (r : SweepReply) (succs : List SweepReply) :
    stillPending pending (r :: succs) = stillPending (pending.erase r.ip) succs := by
  rw [stillPending, stillPending, hnd.erase_eq_filter r.ip, List.filter_filter]
  refine List.filter_congr fun ip _ => ?_
  simp only [List.map_cons, List.contains_cons, Bool.not_or]
  have hb : (ip != r.ip) = !(ip == r.ip) := rfl
  rw [hb, Bool.and_comm]

/-- The even/odd byte sums of `checksum` add up to the sum of the
little-endian 16-bit words of the buffer. -/
theorem altSum_eq_wordsLE_sum :
    ∀ p : List Nat, (altSum p).1 + 256 * (altSum p).2 = (wordsLE p).sum
  | [] => by simp [altSum, wordsLE]
  | [a] => by simp [altSum, wordsLE]
  | a :: b :: rest => by
    have ih := altSum_eq_wordsLE_sum rest
    simp only [altSum, wordsLE, List.sum_cons]
    omega

/-- C1, counterexample: decoding the buffer encoded with the echo-request
types 8 and 128 does not succeed — `decode_response` raises
`ValueError("Wrong type: ...")`, since it accepts only the reply types
0 and 129. -/
theorem claim1_cex :
    decode_response (encode_request 8 1 1 0) false = .error (.wrongType 8) ∧
      decode_response (encode_request 128 1 1 0) false = .error (.wrongType 128) :=
  ⟨rfl, rfl⟩

/-- C1, amended: for the echo-reply types `{0, 129}` (the ones
`decode_response` accepts), any 16-bit id and seq and any 64-bit timestamp
pattern, decoding the 64-byte buffer returned by `encode_request` without
outer IP header succeeds and returns the same id, sequence and bit-exact
timestamp. -/
theorem claim1_roundtrip (ty icmpId icmpSeq t : Nat)
    (hty : ty = 0 ∨ ty = 129) (hid : icmpId < 65536) (hseq : icmpSeq < 65536)
    (ht : t < 18446744073709551616) :
    ∃ d, decode_response (encode_request ty icmpId icmpSeq t) false = .ok d ∧
      d.id = icmpId ∧ d.sequence = icmpSeq ∧ d.time_sent = t := by
  rcases hty with rfl | rfl <;>
    · refine ⟨_, rfl, ?_, ?_, ?_⟩ <;> simp <;> omega

/-- C1 witness: the amended round trip at type 0, id 513, seq 7, and the
bit pattern of the double 1000.0. -/
theorem claim1_roundtrip_witness :
    (((0 : Nat) = 0 ∨ (0 : Nat) = 129) ∧ 513 < 65536 ∧ 7 < 65536 ∧
        4652007308841189376 < 18446744073709551616) ∧
      ∃ d, decode_response (encode_request 0 513 7 4652007308841189376) false = .ok d ∧
        d.id = 513 ∧ d.sequence = 7 ∧ d.time_sent = 4652007308841189376 :=
  ⟨⟨Or.inl rfl, by decide, by decide, by decide⟩,
    claim1_roundtrip 0 513 7 4652007308841189376 (Or.inl rfl) (by decide) (by decide)
      (by decide)⟩

/-- C2, code bug, evaluated at the repository's own test vector
(type 8, id 1, seq 1, timestamp 1000.0, the `REQ` packet of
`tests/test_ping.py`): the source's `checksum` over the full transmitted
buffer is `0x14EB`, not 0, and the RFC 1071 big-endian validation sum is
`0xEB14`-complement `0xF4E...` — also nonzero.  `encode_request` computes
the checksum with the little-endian word convention but packs it big-endian
(`struct "!BBHHH"`) without the `socket.htons` swap, so the transmitted
packet does not validate. -/
theorem claim2_checksum_nonzero :
    checksum (encode_request 8 1 1 4652007308841189376) = 5355 ∧
      rfc1071BE (encode_request 8 1 1 4652007308841189376) = 60180 ∧
      checksum (encode_request 8 1 1 4652007308841189376) ≠ 0 ∧
      rfc1071BE (encode_request 8 1 1 4652007308841189376) ≠ 0 := by
  refine ⟨rfl, rfl, ?_, ?_⟩ <;> decide

/-- C3, counterexample: on the spec's reference buffer
`08 00 00 00 00 00 00 01 00 01` the source's `checksum` returns
`0xFDF7 = 65015`, not the big-endian RFC 1071 reference value
`0xF7FD = 63485` the claim states. -/
theorem claim3_cex :
    checksum [8, 0, 0, 0, 0, 0, 0, 1, 0, 1] = 65015 ∧
      rfc1071BE [8, 0, 0, 0, 0, 0, 0, 1, 0, 1] = 63485 ∧
      checksum [8, 0, 0, 0, 0, 0, 0, 1, 0, 1] ≠
        rfc1071BE [8, 0, 0, 0, 0, 0, 0, 1, 0, 1] := by
  refine ⟨rfl, rfl, ?_⟩; decide

/-- C3, amended: the source's `checksum` is RFC 1071 computed over 16-bit
little-endian words — each even-indexed byte is the low-order byte of its
word and each odd-indexed byte the high-order byte — and on the reference
buffer it returns `0xFDF7`, the byte swap of the big-endian reference value
`0xF7FD`. -/
theorem claim3_checksum_le :
    (∀ p : List Nat, checksum p = rfc1071LE p) ∧
      checksum [8, 0, 0, 0, 0, 0, 0, 1, 0, 1] = 65015 := by
  refine ⟨fun p => ?_, rfl⟩
  simp only [checksum, rfc1071LE]
  rw [altSum_eq_wordsLE_sum]

/-- C4, confirmed: a reply carrying a sequence different from the current
sweep's is discarded by both variants — processing it leaves the whole
remaining sweep computation (pending set, outcomes, deadline a.k.a. the
remaining events) unchanged. -/
theorem claim4_stale_nop (icmpSeq : Nat) (r : SweepReply) (evs : List RecvEvent)
    (pending : List String) (h : r.sequence ≠ icmpSeq) :
    sweepRun icmpSeq (.reply r :: evs) pending = sweepRun icmpSeq evs pending ∧
      asyncSweepRun icmpSeq (.reply r :: evs) pending = asyncSweepRun icmpSeq evs pending := by
  constructor
  · cases pending with
    | nil => cases evs <;> rfl
    | cons p ps => simp [sweepRun, h]
  · simp [asyncSweepRun, h]

/-- C4 witness: a stale reply (seq 6 during sweep 7) is a no-op on a
concrete sweep. -/
theorem claim4_stale_nop_witness :
    (SweepReply.mk "10.0.0.1" 6).sequence ≠ 7 ∧
      (sweepRun 7 (.reply ⟨"10.0.0.1", 6⟩ :: [.timeout]) ["10.0.0.1"]
          = sweepRun 7 [.timeout] ["10.0.0.1"] ∧
        asyncSweepRun 7 (.reply ⟨"10.0.0.1", 6⟩ :: [.timeout]) ["10.0.0.1"]
          = asyncSweepRun 7 [.timeout] ["10.0.0.1"]) :=
  ⟨by decide, claim4_stale_nop 7 ⟨"10.0.0.1", 6⟩ [.timeout] ["10.0.0.1"] (by decide)⟩

/-- C5, code bug, evaluated at the failing input: during sweep 7 with
pending `{"1.2.3.4"}`, a current-sequence reply from the unsolicited ip
`"5.6.7.8"` makes the blocking `receive_one_ping` raise `KeyError` out of
`pending_ips.remove` — the sweep dies instead of logging and continuing.
(The asynchronous callback raises the same `KeyError`, but the event loop
catches and logs it, so only there does the sweep survive, shown by the
second conjunct.) -/
theorem claim5_unsolicited_crash :
    sweepRun 7 [.reply ⟨"5.6.7.8", 7⟩, .reply ⟨"1.2.3.4", 7⟩] ["1.2.3.4"]
        = ([], .crashKeyError "5.6.7.8") ∧
      asyncSweepRun 7 [.reply ⟨"5.6.7.8", 7⟩, .reply ⟨"1.2.3.4", 7⟩] ["1.2.3.4"]
        = ([.success ⟨"1.2.3.4", 7⟩], .completed) := by
  refine ⟨?_, ?_⟩ <;> rfl

/-- Blocking half of the timeout fan-out: if the deadline fires, the
sweep's outcomes are the arrival-ordered successes followed by exactly one
timeout error per destination still pending, and the sweep ends. -/
theorem sweep_timeout_fanout (icmpSeq : Nat) :
    ∀ (evs : List RecvEvent) (pending : List String), pending.Nodup → pending ≠ [] →
      (sweepRun icmpSeq evs pending).2 = .timedOutDone →
      ∃ succs, stillPending pending succs ≠ [] ∧
        (sweepRun icmpSeq evs pending).1
          = succs.map Outcome.success
              ++ (stillPending pending succs).map (Outcome.error · "timeout") := by
  intro evs
  induction evs with
  | nil =>
    intro pending _ hne ht
    cases pending with
    | nil => exact absurd rfl hne
    | cons p ps => simp [sweepRun] at ht
  | cons e rest ih =>
    intro pending hnd hne ht
    cases pending with
    | nil => exact absurd rfl hne
    | cons p ps =>
      cases e with
      | timeout =>
        exact ⟨[], by simp [stillPending_nil], by simp [sweepRun, stillPending_nil]⟩
      | wrongType t => simp [sweepRun] at ht
      | reply r =>
        by_cases hseq : r.sequence = icmpSeq
        · by_cases hip : r.ip ∈ p :: ps
          · rcases eq_or_ne ((p :: ps).erase r.ip) [] with h0 | h0
            · rw [show sweepRun icmpSeq (.reply r :: rest) (p :: ps)
                    = (Outcome.success r :: (sweepRun icmpSeq rest ((p :: ps).erase r.ip)).1,
                        (sweepRun icmpSeq rest ((p :: ps).erase r.ip)).2) by
                  simp [sweepRun, hseq, hip]] at ht
              rw [h0] at ht
              simp [sweepRun] at ht
            · rw [show sweepRun icmpSeq (.reply r :: rest) (p :: ps)
                    = (Outcome.success r :: (sweepRun icmpSeq rest ((p :: ps).erase r.ip)).1,
                        (sweepRun icmpSeq rest ((p :: ps).erase r.ip)).2) by
                  simp [sweepRun, hseq, hip]] at ht ⊢
              obtain ⟨succs, h1, h2⟩ := ih ((p :: ps).erase r.ip) (hnd.erase r.ip) h0 ht
              refine ⟨r :: succs, ?_, ?_⟩
              · rw [stillPending_cons hnd]; exact h1
              · simp only [List.map_cons, List.cons_append, stillPending_cons hnd r succs]
                exact congrArg _ h2
          · simp [sweepRun, hseq, hip] at ht
        · rw [show sweepRun icmpSeq (.reply r :: rest) (p :: ps)
                = sweepRun icmpSeq rest (p :: ps) by simp [sweepRun, hseq]] at ht ⊢
          exact ih (p :: ps) hnd hne ht

/-- Asynchronous half of the timeout fan-out: identical guarantee for the
callback-driven sweep (wrong-type packets and unsolicited replies only
make the loop keep waiting there). -/
theorem asyncSweep_timeout_fanout (icmpSeq : Nat) :
    ∀ (evs : List RecvEvent) (pending : List String), pending.Nodup → pending ≠ [] →
      (asyncSweepRun icmpSeq evs pending).2 = .timedOutDone →
      ∃ succs, stillPending pending succs ≠ [] ∧
        (asyncSweepRun icmpSeq evs pending).1
          = succs.map Outcome.success
              ++ (stillPending pending succs).map (Outcome.error · "timeout") := by
  intro evs
  induction evs with
  | nil => intro pending _ _ ht; simp [asyncSweepRun] at ht
  | cons e rest ih =>
    intro pending hnd hne ht
    cases e with
    | timeout =>
      refine ⟨[], ?_, ?_⟩
      · simpa [stillPending_nil] using hne
      · simp [asyncSweepRun, stillPending_nil]
    | wrongType t =>
      rw [show asyncSweepRun icmpSeq (.wrongType t :: rest) pending
            = asyncSweepRun icmpSeq rest pending by simp [asyncSweepRun]] at ht ⊢
      exact ih pending hnd hne ht
    | reply r =>
      by_cases hseq : r.sequence = icmpSeq
      · by_cases hip : r.ip ∈ pending
        · rcases hre : (pending.erase r.ip).isEmpty with hempty | hnonempty
          · rw [show asyncSweepRun icmpSeq (.reply r :: rest) pending
                  = (Outcome.success r :: (asyncSweepRun icmpSeq rest (pending.erase r.ip)).1,
                      (asyncSweepRun icmpSeq rest (pending.erase r.ip)).2) by
                simp [asyncSweepRun, hseq, hip, hre]] at ht ⊢
            obtain ⟨succs, h1, h2⟩ :=
              ih (pending.erase r.ip) (hnd.erase r.ip)
                (by simpa [List.isEmpty_iff] using hre) ht
            refine ⟨r :: succs, ?_, ?_⟩
            · rw [stillPending_cons hnd]; exact h1
            · simp only [List.map_cons, List.cons_append, stillPending_cons hnd r succs]
              exact congrArg _ h2
          · rw [show asyncSweepRun icmpSeq (.reply r :: rest) pending
                  = ([Outcome.success r], .completed) by
                simp [asyncSweepRun, hseq, hip, hre]] at ht
            simp at ht
        · rw [show asyncSweepRun icmpSeq (.reply r :: rest) pending
                = asyncSweepRun icmpSeq rest pending by simp [asyncSweepRun, hseq, hip]] at ht ⊢
          exact ih pending hnd hne ht
      · rw [show asyncSweepRun icmpSeq (.reply r :: rest) pending
              = asyncSweepRun icmpSeq rest pending by simp [asyncSweepRun, hseq]] at ht ⊢
        exact ih pending hnd hne ht

/-- C6, confirmed: in both variants, when the per-sweep deadline expires
with destinations still pending, the sweep emits exactly one timeout error
outcome per still-pending ip, all of them after every success outcome, and
then ends (`SweepEnd.timedOutDone`). -/
theorem claim6_timeout_fanout (icmpSeq : Nat) (evs : List RecvEvent)
    (pending : List String) (hnd : pending.Nodup) (hne : pending ≠ []) :
    ((sweepRun icmpSeq evs pending).2 = .timedOutDone →
        ∃ succs, stillPending pending succs ≠ [] ∧
          (sweepRun icmpSeq evs pending).1
            = succs.map Outcome.success
                ++ (stillPending pending succs).map (Outcome.error · "timeout")) ∧
      ((asyncSweepRun icmpSeq evs pending).2 = .timedOutDone →
        ∃ succs, stillPending pending succs ≠ [] ∧
          (asyncSweepRun icmpSeq evs pending).1
            = succs.map Outcome.success
                ++ (stillPending pending succs).map (Outcome.error · "timeout")) :=
  ⟨sweep_timeout_fanout icmpSeq evs pending hnd hne,
    asyncSweep_timeout_fanout icmpSeq evs pending hnd hne⟩

/-- C6 witness: sweep 1 over `{"a", "b", "c"}` in which `"a"` answers and
the deadline then fires. -/
theorem claim6_timeout_fanout_witness :
    (["a", "b", "c"] : List String).Nodup ∧ (["a", "b", "c"] : List String) ≠ [] ∧
      (((sweepRun 1 [.reply ⟨"a", 1⟩, .timeout] ["a", "b", "c"]).2 = .timedOutDone →
          ∃ succs, stillPending ["a", "b", "c"] succs ≠ [] ∧
            (sweepRun 1 [.reply ⟨"a", 1⟩, .timeout] ["a", "b", "c"]).1
              = succs.map Outcome.success
                  ++ (stillPending ["a", "b", "c"] succs).map (Outcome.error · "timeout")) ∧
        ((asyncSweepRun 1 [.reply ⟨"a", 1⟩, .timeout] ["a", "b", "c"]).2 = .timedOutDone →
          ∃ succs, stillPending ["a", "b", "c"] succs ≠ [] ∧
            (asyncSweepRun 1 [.reply ⟨"a", 1⟩, .timeout] ["a", "b", "c"]).1
              = succs.map Outcome.success
                  ++ (stillPending ["a", "b", "c"] succs).map (Outcome.error · "timeout"))) :=
  ⟨by decide, by decide,
    claim6_timeout_fanout 1 [.reply ⟨"a", 1⟩, .timeout] ["a", "b", "c"] (by decide) (by decide)⟩

/-- C7, code bug, evaluated at the failing input: a received packet of ICMP
type 3 (not an echo reply) makes `decode_response` raise
`ValueError("Wrong type: 3")`, and in the blocking sweep nothing catches it
— `receive_pings_for_sequence` dies instead of logging and continuing
(first conjunct).  The failure indeed comes from the decoder (second
conjunct), and only the asynchronous sweep survives it because the event
loop swallows callback exceptions (third conjunct). -/
theorem claim7_wrongtype_crash :
    sweepRun 1 [.wrongType 3, .reply ⟨"10.0.0.1", 1⟩] ["10.0.0.1"]
        = ([], .crashWrongType 3) ∧
      decode_response (([3, 1, 0, 0, 0, 0, 0, 0] ++ timeBytes 0) ++ qPadding) false
        = .error (.wrongType 3) ∧
      asyncSweepRun 1 [.wrongType 3, .reply ⟨"10.0.0.1", 1⟩] ["10.0.0.1"]
        = ([.success ⟨"10.0.0.1", 1⟩], .completed) := by
  refine ⟨?_, ?_, ?_⟩ <;> rfl

/-- After the single resolution-error outcome, the generator is forever in
the error-drained or sweep-loop phase. -/
theorem ping_empty_inv (x : String × String) (n : Nat) :
    pingIter none (.emitErrors [x]) (n + 1) = .emitErrors [] ∨
      ∃ i, pingIter none (.emitErrors [x]) (n + 1) = .sweepLoop i := by
  induction n with
  | zero => cases x; simp [pingIter, pingStep]
  | succ m ih =>
    have hstep : pingIter none (.emitErrors [x]) (m + 1 + 1)
        = (pingStep none (pingIter none (.emitErrors [x]) (m + 1))).1 := rfl
    rcases ih with h | ⟨i, h⟩
    · exact Or.inr ⟨0, by rw [hstep, h]; rfl⟩
    · exact Or.inr ⟨i + 1, by rw [hstep, h]; rfl⟩

/-- C8, code bug, evaluated at the failing input: when every input failed
to resolve (`addr_map` empty) the blocking `Ping.ping` with the default
`count=None` yields the one resolution-error outcome (first conjunct) but
then never exhausts — it stays in the sweep loop forever (second conjunct)
yielding nothing further (third conjunct), instead of returning. -/
theorem claim8_empty_map_never_ends :
    (pingStep none (.emitErrors [("no.such.host.example", "Name or service not known")])).2
        = some (.error "no.such.host.example" "Name or service not known") ∧
      (∀ n, pingIter none
          (.emitErrors [("no.such.host.example", "Name or service not known")]) n
          ≠ .done) ∧
      (∀ n, (pingStep none (pingIter none
          (.emitErrors [("no.such.host.example", "Name or service not known")]) (n + 1))).2
          = none) := by
  refine ⟨rfl, ?_, ?_⟩
  · intro n
    cases n with
    | zero => simp [pingIter]
    | succ m =>
      rcases ping_empty_inv ("no.such.host.example", "Name or service not known") m with
        h | ⟨i, h⟩ <;> simp [h]
  · intro n
    rcases ping_empty_inv ("no.such.host.example", "Name or service not known") n with
      h | ⟨i, h⟩ <;> simp [h, pingStep]

/-- C9, counterexample: in the spec's scenario S6 (sweep 1 replies with RTT
10 ms, sweep 2 times out) the second outcome is annotated with
`avg_time = sum/total = 0.010/2 = 0.005`, not the claimed `0.010`. -/
theorem claim9_cex :
    ((runStats emptyStats [.ok "10.0.0.1" (1/100), .err "10.0.0.1"])[1]?).map Annot.avg_time
        = some (1/200) ∧
      ((1 : ℚ)/200) ≠ (1/100 : ℚ) := by
  constructor
  · simp only [runStats, updateStats, hostStatsUpdate, annotOf, emptyStats, initHostStats,
      PingRecord.ip, Option.getD]
    norm_num [min_def, max_def]
  · norm_num

/-- C9, amended: after the reply sweep (RTT 0.010) and the timed-out sweep,
the second outcome's annotations are `nb_requests = 2`, `nb_ok = 1`,
`nb_errors = 1`, `loss = 0.5`, `min_time = max_time = 0.010`,
`accum_time = 0.010`, and `avg_time = 0.005` (the accumulated RTT divided
by all requests, errors included). -/
theorem claim9_stats_scenario :
    (runStats emptyStats [.ok "10.0.0.1" (1/100), .err "10.0.0.1"])[1]?
      = some { min_time := 1/100, max_time := 1/100, avg_time := 1/200,
               nb_requests := 2, nb_ok := 1, nb_errors := 1,
               accum_time := 1/100, loss := 1/2 } := by
  simp only [runStats, updateStats, hostStatsUpdate, annotOf, emptyStats, initHostStats,
    PingRecord.ip, Option.getD]
  norm_num [min_def, max_def, Annot.mk.injEq]

/-- One `update_stats` step keeps an error-only accumulator error-only,
provided the incoming record for this ip (if it is for this ip) is an
error. -/
theorem errOnly_update {m : StatsMap} {ip : String} (h : errOnly m ip) (r : PingRecord)
    (hr : r.ip = ip → r.isErr = true) : errOnly (updateStats m r).1 ip := by
  intro st hst
  by_cases hip : ip = r.ip
  · simp only [updateStats, if_pos hip] at hst
    cases r with
    | ok a dt =>
      exact absurd (hr hip.symm) (by simp [PingRecord.isErr])
    | err a =>
      rcases hlk : m (PingRecord.err a).ip with _ | st0
      · rw [hlk] at hst
        simp only [Option.getD, hostStatsUpdate] at hst
        rw [← Option.some.injEq] at hst
        simp only [Option.some.injEq] at hst
        subst hst
        exact ⟨rfl, rfl, rfl⟩
      · rw [hlk] at hst
        have h0 := h st0 (by rw [hip]; exact hlk)
        simp only [Option.getD, hostStatsUpdate] at hst
        rw [← Option.some.injEq] at hst
        simp only [Option.some.injEq] at hst
        subst hst
        exact ⟨h0.1, h0.2.1, h0.2.2⟩
  · simp only [updateStats, if_neg hip] at hst
    exact h st hst

/-- Annotating an error record against an error-only accumulator exposes
the `__init__` sentinels. -/
theorem annot_sentinel {m : StatsMap} {ip : String} (hm : errOnly m ip) (a : String)
    (hip : a = ip) :
    (updateStats m (.err a)).2.min_time = 99999999 ∧
      (updateStats m (.err a)).2.max_time = 0 ∧
      (updateStats m (.err a)).2.accum_time = 0 := by
  rcases hlk : m a with _ | st0
  · simp [updateStats, hostStatsUpdate, annotOf, PingRecord.ip, hlk, initHostStats]
  · have h0 := hm st0 (hip ▸ hlk)
    simp [updateStats, hostStatsUpdate, annotOf, PingRecord.ip, hlk]
    exact ⟨h0.2.1, h0.1, h0.2.2⟩

/-- The per-record annotations produced by folding `update_stats` over a
stream, generalized over the starting dictionary. -/
theorem runStats_sentinels (ip : String) :
    ∀ (records : List PingRecord) (k : Nat) (m : StatsMap), errOnly m ip →
      (∀ r ∈ records.take (k + 1), r.ip = ip → r.isErr = true) →
      (records[k]?).map PingRecord.ip = some ip →
      ∃ a, (runStats m records)[k]? = some a ∧
        a.min_time = 99999999 ∧ a.max_time = 0 ∧ a.accum_time = 0 := by
  intro records
  induction records with
  | nil => intro k m _ _ hk; simp at hk
  | cons r rest ih =>
    intro k m hm herr hk
    cases k with
    | zero =>
      have hip : r.ip = ip := by simpa using hk
      have hr : r.isErr = true := herr r (by simp) hip
      cases r with
      | ok a dt => simp [PingRecord.isErr] at hr
      | err a =>
        have hipa : a = ip := by simpa [PingRecord.ip] using hip
        obtain ⟨h1, h2, h3⟩ := annot_sentinel hm a hipa
        exact ⟨(updateStats m (.err a)).2, by simp [runStats], h1, h2, h3⟩
    | succ k' =>
      have hstep : (runStats m (r :: rest))[k' + 1]?
          = (runStats (updateStats m r).1 rest)[k']? := by
        simp [runStats]
      rw [hstep]
      refine ih k' (updateStats m r).1
        (errOnly_update hm r (herr r (by simp)))
        (fun r' hr' => herr r' ?_) (by simpa using hk)
      rw [List.take_succ_cons]
      exact List.mem_cons_of_mem r hr'

/-- C10, confirmed: while a destination has produced only error outcomes
(no successful reply yet), every annotation written for it still carries
the `HostStats.__init__` sentinels `min_time = 99999999`, `max_time = 0`
and `accum_time = 0`. -/
theorem claim10_sentinel_annotations (records : List PingRecord) (ip : String) (k : Nat)
    (herr : ∀ r ∈ records.take (k + 1), r.ip = ip → r.isErr = true)
    (hk : (records[k]?).map PingRecord.ip = some ip) :
    ∃ a, (runStats emptyStats records)[k]? = some a ∧
      a.min_time = 99999999 ∧ a.max_time = 0 ∧ a.accum_time = 0 :=
  runStats_sentinels ip records k emptyStats (fun st h => by simp [emptyStats] at h) herr hk

/-- C10 witness: two errors for `"10.0.0.1"` around a success for another
destination; the second error's annotations still carry the sentinels. -/
theorem claim10_sentinel_annotations_witness :
    (∀ r ∈ ([.err "10.0.0.1", .ok "8.8.8.8" (1/100), .err "10.0.0.1"] :
          List PingRecord).take 3,
        r.ip = "10.0.0.1" → r.isErr = true) ∧
      ((([.err "10.0.0.1", .ok "8.8.8.8" (1/100), .err "10.0.0.1"] :
            List PingRecord)[2]?).map PingRecord.ip = some "10.0.0.1") ∧
      ∃ a, (runStats emptyStats
            [.err "10.0.0.1", .ok "8.8.8.8" (1/100), .err "10.0.0.1"])[2]? = some a ∧
        a.min_time = 99999999 ∧ a.max_time = 0 ∧ a.accum_time = 0 :=
  ⟨by decide, by decide,
    claim10_sentinel_annotations [.err "10.0.0.1", .ok "8.8.8.8" (1/100), .err "10.0.0.1"]
      "10.0.0.1" 2 (by decide) (by decide)⟩

end MultiPing
